import Mathlib

/-!
Verification of the scheduled screenshot monitor
(examples/use-cases/scheduled_screenshot_monitor.py).

The script orchestrates: a manual login wait, a one-time AI-assisted
discovery of page blocks, and a periodic capture loop that screenshots
each block and persists a JSON metadata list.  We embed its data model
and operations shallowly: the effectful collaborators (browser session,
AI agent, clock, filesystem) become explicit inputs, `try/except`
becomes `Except`/`Option` or explicit success flags, and the JSON file
on disk is modelled by its parse result.
-/

/-- The pydantic model `ScreenshotMetadata`: one record per successful
screenshot capture. All four fields are strings in the source. -/
structure ScreenshotMetadata where
  timestamp : String
  block_name : String
  screenshot_path : String
  url : String
deriving DecidableEq, Repr

/-- The pydantic model `ScreenshotBlock`: a named page region with a
CSS selector. -/
structure ScreenshotBlock where
  name : String
  selector : String
deriving DecidableEq, Repr

/-- JSON values, as produced by Python's `json.load` (a `dict` is an
association list with the keys it ended up holding). -/
inductive Json where
  | null
  | bool (b : Bool)
  | num (n : Int)
  | str (s : String)
  | arr (items : List Json)
  | obj (fields : List (String × Json))

/-- `item.model_dump()` for a `ScreenshotMetadata`: a dict with the
four fields in declaration order. -/
def metadataToJson (m : ScreenshotMetadata) : Json :=
  Json.obj
    [ ("timestamp", Json.str m.timestamp)
    , ("block_name", Json.str m.block_name)
    , ("screenshot_path", Json.str m.screenshot_path)
    , ("url", Json.str m.url) ]

/-- Dict access used by pydantic validation: the field must be present
and hold a string (pydantic v2 does not coerce other JSON types into a
`str` field). -/
def getStrField : List (String × Json) → String → Option String
  | [], _ => none
  | (k, v) :: rest, key =>
    if k = key then
      match v with
      | Json.str s => some s
      | _ => none
    else getStrField rest key

/-- `ScreenshotMetadata(**item)`: the item must be a dict carrying the
four required string fields; any other shape raises (modelled as
`none`). -/
def parseMetadataItem : Json → Option ScreenshotMetadata
  | Json.obj fields => do
    let t ← getStrField fields "timestamp"
    let b ← getStrField fields "block_name"
    let p ← getStrField fields "screenshot_path"
    let u ← getStrField fields "url"
    pure ⟨t, b, p, u⟩
  | _ => none

/-- The list comprehension
`[ScreenshotMetadata(**item) for item in data]`: the first failing item
raises, aborting the whole load (modelled as `none`). -/
def parseMetadataItems : List Json → Option (List ScreenshotMetadata)
  | [] => some []
  | item :: rest => do
    let m ← parseMetadataItem item
    let ms ← parseMetadataItems rest
    pure (m :: ms)

/-- The body of `_load_metadata` after `json.load`: `data` must be a
JSON array (iterating any other Python value either raises at once or
feeds non-dict items into the comprehension, which raises). -/
def parseMetadataList : Json → Option (List ScreenshotMetadata)
  | Json.arr items => parseMetadataItems items
  | _ => none

/-- State of the metadata file as `_load_metadata` finds it:
absent, present but not parseable as JSON, or parsed to a JSON value. -/
inductive FileState where
  | missing
  | invalid
  | parsed (j : Json)

/-- `_load_metadata`: when the file is missing nothing happens (the
list keeps its previous value); when `json.load` or the record
validation raises, the `except` branch resets the list to `[]`;
otherwise the parsed records replace the list. -/
def loadMetadata : FileState → List ScreenshotMetadata → List ScreenshotMetadata
  | FileState.missing, prev => prev
  | FileState.invalid, _ => []
  | FileState.parsed j, _ =>
    match parseMetadataList j with
    | some l => l
    | none => []

/-- `_save_metadata`: the JSON document written to the file on a
successful save — the dump of the full in-memory list. -/
def saveMetadata (l : List ScreenshotMetadata) : Json :=
  Json.arr (l.map metadataToJson)

-- Capture cycle (`capture_block_screenshots`)

/-- The ambient values a capture cycle reads once, before its loop:
the two `datetime.now()` renderings, the current URL
(from `_get_current_url`), the screenshot directory, and — for each
block — whether `screenshot_element` succeeds (the per-block
`try/except` swallows a failure). -/
structure CycleEnv where
  timestamp : String
  timestampSafe : String
  currentUrl : String
  screenshotDir : String
  shotOk : ScreenshotBlock → Bool

/-- `filename = f'\x7bblock.name\x7d_\x7btimestamp_safe\x7d.png'`. -/
def mkFilename (blockName tsSafe : String) : String :=
  blockName ++ "_" ++ tsSafe ++ ".png"

/-- The metadata entry built for a block whose screenshot succeeded:
`screenshot_path` is `str((screenshot_dir / filename).relative_to('.'))`,
which for the script's relative directory is the joined path. -/
def mkRecord (env : CycleEnv) (block : ScreenshotBlock) : ScreenshotMetadata :=
  { timestamp := env.timestamp
    block_name := block.name
    screenshot_path := env.screenshotDir ++ "/" ++ mkFilename block.name env.timestampSafe
    url := env.currentUrl }

/-- One iteration of the `for block in blocks` loop: on screenshot
success append the metadata entry, on failure log and keep the list. -/
def captureStep (env : CycleEnv) (ml : List ScreenshotMetadata)
    (block : ScreenshotBlock) : List ScreenshotMetadata :=
  if env.shotOk block then ml ++ [mkRecord env block] else ml

/-- `capture_block_screenshots`: raises `RuntimeError` when no browser
session is set; otherwise runs the per-block loop over the incoming
metadata list and then saves.  Returns the new in-memory list together
with the JSON document written by `_save_metadata`. -/
def captureBlockScreenshots (env : CycleEnv) (sessionExists : Bool)
    (blocks : List ScreenshotBlock) (ml : List ScreenshotMetadata) :
    Except String (List ScreenshotMetadata × Json) :=
  if sessionExists then
    let ml2 := blocks.foldl (captureStep env) ml
    Except.ok (ml2, saveMetadata ml2)
  else
    Except.error "Browser session not initialized"

-- Current URL (`_get_current_url`)

/-- `_get_current_url`: the session handle is `none` when no browser
session is set; when it exists, the `get_state` query either yields a
state URL or raises, and a raise falls back to the target URL. -/
def getCurrentUrl (targetUrl : String)
    (session : Option (Except Unit String)) : String :=
  match session with
  | none => targetUrl
  | some (Except.ok stateUrl) => stateUrl
  | some (Except.error _) => targetUrl

-- Block discovery (`identify_chart_blocks`)

/-- The hardcoded fallback block list used when the agent reported
nothing. -/
def fallbackBlocks : List ScreenshotBlock :=
  [ ⟨"Chart-Canvas", "canvas"⟩
  , ⟨"Chart-SVG", "svg"⟩
  , ⟨"Dashboard-Main", ".dashboard, .chart-container, .graph-container"⟩ ]

/-- The tail of `identify_chart_blocks`: if `blocks_found` is empty
(falsy), substitute the fallback list, else return what was reported. -/
def chartBlocksResult (blocksFound : List ScreenshotBlock) : List ScreenshotBlock :=
  if blocksFound.isEmpty then fallbackBlocks else blocksFound

/-- `identify_chart_blocks`: raises `RuntimeError` when no browser
session is set.  `reported` is the list the agent passed to the
`report_blocks` action (`none` when the action was never invoked;
`blocks_found` then keeps its initial `[]`).  `agentRaises` records
whether `agent.run()` raised: the exception is caught and only logged,
so it does not influence the result. -/
def identifyChartBlocks (sessionExists : Bool)
    (reported : Option (List ScreenshotBlock)) (agentRaises : Bool) :
    Except String (List ScreenshotBlock) :=
  if sessionExists then
    let blocksFound := Option.getD reported []
    Except.ok (chartBlocksResult blocksFound)
  else
    Except.error "Browser session not initialized"

-- Monitoring loop (`run_monitoring_loop`)

/-- Outcome of one sequential phase of the run: it returned a value, or
a `KeyboardInterrupt` or another exception escaped it. -/
inductive PhaseOutcome (α : Type) where
  | ok (a : α)
  | interrupt
  | error

/-- How the infinite capture loop ends: it has no normal exit, so it
terminates by `KeyboardInterrupt` or by an exception. -/
inductive LoopEnd where
  | interrupt
  | error
deriving DecidableEq, Repr

/-- How `run_monitoring_loop` finished. `raisedBeforeLoop` means an
exception escaped `wait_for_login` or `identify_chart_blocks`, which
sit outside the `try`, and propagated out of the function. -/
inductive ExitKind where
  | raisedBeforeLoop
  | loginFailed
  | noBlocks
  | stoppedByUser
  | loopError
deriving DecidableEq, Repr

/-- Observable effects of a `run_monitoring_loop` call: whether the
`finally` block's final `_save_metadata` ran, whether the browser
session was closed, and how the run ended. -/
structure RunResult where
  finalSaveDone : Bool
  browserClosed : Bool
  exit : ExitKind
deriving DecidableEq, Repr

/-- `run_monitoring_loop`: login wait, then one-time discovery, then
the capture loop.  Only the capture loop sits inside
`try ... except KeyboardInterrupt ... except Exception ... finally`,
so only a loop-phase ending reaches the final save and browser close;
an interrupt or error in the two earlier phases propagates with neither
(and the early `return`s also skip them).  After a successful login the
session handle is set, so the `finally` close guard passes. -/
def runMonitoringLoop (login : PhaseOutcome Bool)
    (discovery : PhaseOutcome (List ScreenshotBlock)) (stop : LoopEnd) :
    RunResult :=
  match login with
  | PhaseOutcome.interrupt => ⟨false, false, ExitKind.raisedBeforeLoop⟩
  | PhaseOutcome.error => ⟨false, false, ExitKind.raisedBeforeLoop⟩
  | PhaseOutcome.ok false => ⟨false, false, ExitKind.loginFailed⟩
  | PhaseOutcome.ok true =>
    match discovery with
    | PhaseOutcome.interrupt => ⟨false, false, ExitKind.raisedBeforeLoop⟩
    | PhaseOutcome.error => ⟨false, false, ExitKind.raisedBeforeLoop⟩
    | PhaseOutcome.ok blocks =>
      if blocks.isEmpty then ⟨false, false, ExitKind.noBlocks⟩
      else
        match stop with
        | LoopEnd.interrupt => ⟨true, true, ExitKind.stoppedByUser⟩
        | LoopEnd.error => ⟨true, true, ExitKind.loopError⟩

/-- A concrete cycle environment for the witnesses: the screenshot of
block `B2` fails, every other screenshot succeeds. -/
def sampleEnv : CycleEnv :=
  ⟨"2026-10-12T00:00:00", "20261012_000000", "https://example.com/dash",
    "screenshots", fun b => !(b.name == "B2")⟩

/-- A concrete three-block list for the witnesses. -/
def sampleBlocks : List ScreenshotBlock :=
  [⟨"B1", "#c1"⟩, ⟨"B2", "#c2"⟩, ⟨"B3", "#c3"⟩]

-- Helper lemmas

theorem parseMetadataItem_metadataToJson (m : ScreenshotMetadata) :
    parseMetadataItem (metadataToJson m) = some m := rfl

theorem parseMetadataItems_map_metadataToJson (l : List ScreenshotMetadata) :
    parseMetadataItems (l.map metadataToJson) = some l := by
  induction l with
  | nil => rfl
  | cons m rest ih =>
    simp [parseMetadataItems, parseMetadataItem_metadataToJson, ih]

theorem parseMetadataItems_length {items : List Json}
    {l : List ScreenshotMetadata} (h : parseMetadataItems items = some l) :
    l.length = items.length := by
  induction items generalizing l with
  | nil => simp [parseMetadataItems] at h; simp [h]
  | cons item rest ih =>
    simp only [parseMetadataItems, Option.bind_eq_bind, Option.bind_eq_some] at h
    obtain ⟨m, _, ms, hms, hl⟩ := h
    rw [show (pure (m :: ms) : Option (List ScreenshotMetadata)) = some (m :: ms) from rfl] at hl
    rw [Option.some_inj] at hl
    subst hl
    simp [ih hms]

theorem foldl_captureStep (env : CycleEnv) (blocks : List ScreenshotBlock)
    (ml : List ScreenshotMetadata) :
    blocks.foldl (captureStep env) ml =
      ml ++ (blocks.filter env.shotOk).map (mkRecord env) := by
  induction blocks generalizing ml with
  | nil => simp
  | cons b bs ih =>
    by_cases h : env.shotOk b
    · simp [List.foldl, captureStep, h, ih]
    · simp [List.foldl, captureStep, h, ih]

theorem length_filter_add_countP_not (p : ScreenshotBlock → Bool)
    (l : List ScreenshotBlock) :
    (l.filter p).length + l.countP (fun a => !p a) = l.length := by
  induction l with
  | nil => rfl
  | cons x xs ih =>
    by_cases h : p x <;>
      simp [List.filter, List.countP_cons, h, ← ih] <;> omega

theorem append_right_cancel_str {a b s : String} (h : a ++ s = b ++ s) :
    a = b := by
  have hd : a.data ++ s.data = b.data ++ s.data := by
    simpa [String.data_append] using congrArg String.data h
  exact String.ext (List.append_cancel_right hd)

theorem parseMetadataItems_getD {items : List Json}
    {l : List ScreenshotMetadata} (h : parseMetadataItems items = some l)
    (i : Nat) (hi : i < items.length) :
    parseMetadataItem (items.getD i Json.null) =
      some (l.getD i ⟨"", "", "", ""⟩) := by
  induction items generalizing l i with
  | nil => simp at hi
  | cons item rest ih =>
    simp only [parseMetadataItems, Option.bind_eq_bind, Option.bind_eq_some] at h
    obtain ⟨m, hm, ms, hms, hl⟩ := h
    rw [show (pure (m :: ms) : Option (List ScreenshotMetadata)) = some (m :: ms) from rfl,
      Option.some_inj] at hl
    subst hl
    match i with
    | 0 => simpa using hm
    | i + 1 =>
      have hi2 : i < rest.length := by simpa using hi
      simpa using ih hms i hi2

-- Claim theorems

/-- Claim C1: saving any metadata list with `_save_metadata` and loading
the written file back with `_load_metadata` yields a list equal to the
one saved; in particular this holds for the list obtained by appending
one record. -/
theorem save_then_load_round_trip (l prev : List ScreenshotMetadata)
    (m : ScreenshotMetadata) :
    loadMetadata (FileState.parsed (saveMetadata l)) prev = l ∧
    loadMetadata (FileState.parsed (saveMetadata (l ++ [m]))) prev = l ++ [m] := by
  have key : ∀ l2 : List ScreenshotMetadata,
      loadMetadata (FileState.parsed (saveMetadata l2)) prev = l2 := by
    intro l2
    simp only [loadMetadata, saveMetadata, parseMetadataList,
      parseMetadataItems_map_metadataToJson]
  exact ⟨key l, key (l ++ [m])⟩

/-- Claim C5: when the metadata file exists but is malformed — its text
does not parse as JSON, or its parsed value fails record validation —
`_load_metadata` ends with an empty in-memory list (the exception is
caught inside the method, so nothing propagates). -/
theorem load_malformed_yields_empty (prev : List ScreenshotMetadata)
    (j : Json) (h : parseMetadataList j = none) :
    loadMetadata FileState.invalid prev = [] ∧
    loadMetadata (FileState.parsed j) prev = [] := by
  exact ⟨rfl, by simp [loadMetadata, h]⟩

/-- Witness for C5 at a concrete malformed file: a JSON string document
(not an array), loaded over a nonempty previous list. -/
theorem load_malformed_yields_empty_witness :
    parseMetadataList (Json.str "oops") = none ∧
    loadMetadata FileState.invalid [⟨"t", "b", "p", "u"⟩] = [] ∧
    loadMetadata (FileState.parsed (Json.str "oops")) [⟨"t", "b", "p", "u"⟩] = [] := by
  refine ⟨rfl, ?_, ?_⟩
  · exact (load_malformed_yields_empty [⟨"t", "b", "p", "u"⟩] (Json.str "oops") rfl).1
  · exact (load_malformed_yields_empty [⟨"t", "b", "p", "u"⟩] (Json.str "oops") rfl).2

/-- Claim C6: when the metadata file parses to a JSON array of N
well-formed records, `_load_metadata` produces exactly those N records,
positionally in file order. -/
theorem load_wellformed_length_order (prev : List ScreenshotMetadata)
    (items : List Json) (l : List ScreenshotMetadata)
    (h : parseMetadataItems items = some l) :
    loadMetadata (FileState.parsed (Json.arr items)) prev = l ∧
    l.length = items.length ∧
    ∀ i : Nat, i < items.length →
      parseMetadataItem (items.getD i Json.null) =
        some (l.getD i ⟨"", "", "", ""⟩) := by
  refine ⟨by simp [loadMetadata, parseMetadataList, h],
    parseMetadataItems_length h, fun i hi => parseMetadataItems_getD h i hi⟩

/-- Witness for C6 at a concrete two-record file. -/
theorem load_wellformed_length_order_witness :
    loadMetadata
        (FileState.parsed (Json.arr
          [ metadataToJson ⟨"t1", "b1", "p1", "u1"⟩
          , metadataToJson ⟨"t2", "b2", "p2", "u2"⟩ ])) [] =
      [⟨"t1", "b1", "p1", "u1"⟩, ⟨"t2", "b2", "p2", "u2"⟩] ∧
    ([⟨"t1", "b1", "p1", "u1"⟩, ⟨"t2", "b2", "p2", "u2"⟩] :
        List ScreenshotMetadata).length = 2 := by
  have h := load_wellformed_length_order []
    [ metadataToJson ⟨"t1", "b1", "p1", "u1"⟩
    , metadataToJson ⟨"t2", "b2", "p2", "u2"⟩ ]
    [⟨"t1", "b1", "p1", "u1"⟩, ⟨"t2", "b2", "p2", "u2"⟩] rfl
  exact ⟨h.1, rfl⟩

/-- Claim C10: `_get_current_url` is total — it is defined on every
session state and returns the state URL on a successful query, and the
configured target URL when the session is absent or the query raises. -/
theorem getCurrentUrl_total (targetUrl stateUrl : String) :
    getCurrentUrl targetUrl none = targetUrl ∧
    getCurrentUrl targetUrl (some (Except.ok stateUrl)) = stateUrl ∧
    getCurrentUrl targetUrl (some (Except.error ())) = targetUrl :=
  ⟨rfl, rfl, rfl⟩

/-- Claim C2: when the screenshot call fails for exactly one block of
the cycle and succeeds for the others, the cycle still appends one
metadata record per succeeding block, in list order, and completes by
saving — the per-block failure never aborts the cycle. -/
theorem capture_one_failure_keeps_others (env : CycleEnv)
    (blocks : List ScreenshotBlock) (ml : List ScreenshotMetadata)
    (h : blocks.countP (fun b => !env.shotOk b) = 1) :
    captureBlockScreenshots env true blocks ml =
      Except.ok (ml ++ (blocks.filter env.shotOk).map (mkRecord env),
        saveMetadata (ml ++ (blocks.filter env.shotOk).map (mkRecord env))) ∧
    (blocks.filter env.shotOk).length = blocks.length - 1 := by
  constructor
  · simp [captureBlockScreenshots, foldl_captureStep]
  · have hc := length_filter_add_countP_not env.shotOk blocks
    omega

/-- Witness for C2: three blocks, the middle one fails; the other two
records are appended in order and the save still happens. -/
theorem capture_one_failure_keeps_others_witness :
    sampleBlocks.countP (fun b => !sampleEnv.shotOk b) = 1 ∧
    captureBlockScreenshots sampleEnv true sampleBlocks [] =
      Except.ok ((sampleBlocks.filter sampleEnv.shotOk).map (mkRecord sampleEnv),
        saveMetadata ((sampleBlocks.filter sampleEnv.shotOk).map (mkRecord sampleEnv))) ∧
    (sampleBlocks.filter sampleEnv.shotOk).length = sampleBlocks.length - 1 := by
  have h := capture_one_failure_keeps_others sampleEnv sampleBlocks [] (by decide)
  exact ⟨by decide, by simpa using h.1, h.2⟩

/-- Claim C7: every record appended during one capture cycle carries a
screenshot path of the form
`screenshot_dir/\x7bblock_name\x7d_\x7btimestamp_safe\x7d.png` with the
single `timestamp_safe` value taken once at the start of the cycle, so
within a cycle the filenames of two blocks agree exactly when the block
names do. -/
theorem cycle_filename_shape (env : CycleEnv) (blocks : List ScreenshotBlock)
    (ml : List ScreenshotMetadata) :
    (∀ r ∈ (blocks.foldl (captureStep env) ml).drop ml.length,
      r.screenshot_path =
        env.screenshotDir ++ "/" ++
          (r.block_name ++ ("_" ++ env.timestampSafe ++ ".png"))) ∧
    (∀ n1 n2 : String,
      mkFilename n1 env.timestampSafe = mkFilename n2 env.timestampSafe ↔ n1 = n2) := by
  constructor
  · intro r hr
    rw [foldl_captureStep, List.drop_left] at hr
    obtain ⟨b, _, rfl⟩ := List.mem_map.mp hr
    simp [mkRecord, mkFilename, String.append_assoc]
  · intro n1 n2
    constructor
    · intro h
      have h2 : n1 ++ ("_" ++ env.timestampSafe ++ ".png") =
          n2 ++ ("_" ++ env.timestampSafe ++ ".png") := by
        simpa [mkFilename, String.append_assoc] using h
      exact append_right_cancel_str h2
    · intro h; rw [h]

/-- Witness for C7: the first record of the sample cycle has the stated
path form, and two distinct sample names give distinct filenames. -/
theorem cycle_filename_shape_witness :
    (mkRecord sampleEnv ⟨"B1", "#c1"⟩).screenshot_path =
      sampleEnv.screenshotDir ++ "/" ++
        ((mkRecord sampleEnv ⟨"B1", "#c1"⟩).block_name ++
          ("_" ++ sampleEnv.timestampSafe ++ ".png")) ∧
    (mkFilename "B1" sampleEnv.timestampSafe =
        mkFilename "B3" sampleEnv.timestampSafe ↔ ("B1" : String) = "B3") := by
  constructor
  · exact (cycle_filename_shape sampleEnv sampleBlocks []).1
      (mkRecord sampleEnv ⟨"B1", "#c1"⟩) (by decide)
  · exact (cycle_filename_shape sampleEnv sampleBlocks []).2 "B1" "B3"

/-- Claim C8: a capture cycle only appends to the metadata list — the
incoming records survive unchanged as a prefix, new records follow in
capture order, the length never decreases — and the accompanying save
serializes the full resulting in-memory list as the file's new
content. -/
theorem metadata_append_only (env : CycleEnv) (blocks : List ScreenshotBlock)
    (ml : List ScreenshotMetadata) :
    captureBlockScreenshots env true blocks ml =
      Except.ok (ml ++ (blocks.filter env.shotOk).map (mkRecord env),
        saveMetadata (ml ++ (blocks.filter env.shotOk).map (mkRecord env))) ∧
    ml.length ≤ (ml ++ (blocks.filter env.shotOk).map (mkRecord env)).length ∧
    saveMetadata (ml ++ (blocks.filter env.shotOk).map (mkRecord env)) =
      Json.arr ((ml ++ (blocks.filter env.shotOk).map (mkRecord env)).map
        metadataToJson) := by
  refine ⟨by simp [captureBlockScreenshots, foldl_captureStep], by simp, rfl⟩

/-- Counterexample to claim C3: a `KeyboardInterrupt` raised while
`run_monitoring_loop` is still in the login-wait phase makes the run
exit by propagation, with no final metadata save and no browser close —
`wait_for_login` and `identify_chart_blocks` sit outside the
`try/finally`. -/
theorem run_loop_login_interrupt_skips_final_save :
    (runMonitoringLoop PhaseOutcome.interrupt
      (PhaseOutcome.ok fallbackBlocks) LoopEnd.interrupt).finalSaveDone = false ∧
    (runMonitoringLoop PhaseOutcome.interrupt
      (PhaseOutcome.ok fallbackBlocks) LoopEnd.interrupt).browserClosed = false ∧
    (runMonitoringLoop PhaseOutcome.interrupt
      (PhaseOutcome.ok fallbackBlocks) LoopEnd.interrupt).exit =
      ExitKind.raisedBeforeLoop :=
  ⟨rfl, rfl, rfl⟩

/-- Claim C3 as amended: when the interrupt or unhandled error occurs
inside the capture loop — after a successful login and a discovery that
returned a nonempty block list — `run_monitoring_loop` performs the
final metadata save and closes the browser session; an interrupt during
the login wait or the discovery phase instead propagates with neither
effect. -/
theorem run_loop_final_save_in_loop_phase (blocks : List ScreenshotBlock)
    (stop : LoopEnd) (h : blocks ≠ []) :
    (runMonitoringLoop (PhaseOutcome.ok true)
      (PhaseOutcome.ok blocks) stop).finalSaveDone = true ∧
    (runMonitoringLoop (PhaseOutcome.ok true)
      (PhaseOutcome.ok blocks) stop).browserClosed = true ∧
    (runMonitoringLoop PhaseOutcome.interrupt
      (PhaseOutcome.ok blocks) stop).finalSaveDone = false ∧
    (runMonitoringLoop (PhaseOutcome.ok true)
      PhaseOutcome.interrupt stop).finalSaveDone = false := by
  have he : blocks.isEmpty = false := by
    cases blocks with
    | nil => exact absurd rfl h
    | cons b bs => rfl
  cases stop <;> simp [runMonitoringLoop, he]

/-- Witness for the amended C3: a loop-phase interrupt over the
fallback blocks saves and closes. -/
theorem run_loop_final_save_in_loop_phase_witness :
    fallbackBlocks ≠ [] ∧
    (runMonitoringLoop (PhaseOutcome.ok true)
      (PhaseOutcome.ok fallbackBlocks) LoopEnd.interrupt).finalSaveDone = true ∧
    (runMonitoringLoop (PhaseOutcome.ok true)
      (PhaseOutcome.ok fallbackBlocks) LoopEnd.interrupt).browserClosed = true := by
  have h := run_loop_final_save_in_loop_phase fallbackBlocks LoopEnd.interrupt (by decide)
  exact ⟨by decide, h.1, h.2.1⟩

/-- Counterexample to claim C4: when the agent raises only after having
reported a nonempty list through `report_blocks`, the caught exception
is merely logged and `identify_chart_blocks` returns the reported list,
not the fallback list — although the agent did raise an error. -/
theorem identify_raise_after_report_not_fallback :
    identifyChartBlocks true (some [⟨"Sales Chart", "#sales"⟩]) true =
      Except.ok [⟨"Sales Chart", "#sales"⟩] ∧
    ([⟨"Sales Chart", "#sales"⟩] : List ScreenshotBlock) ≠ fallbackBlocks :=
  ⟨rfl, by decide⟩

/-- Claim C4 as amended: whenever the reported block list is empty —
the agent reported zero blocks, or never invoked the reporting action,
in particular because it raised before reporting — and regardless of
whether `agent.run()` raised, `identify_chart_blocks` returns the
fallback list of exactly 3 blocks with the fixed names `Chart-Canvas`,
`Chart-SVG`, `Dashboard-Main` and the fixed selectors `canvas`, `svg`,
`.dashboard, .chart-container, .graph-container`. -/
theorem identify_fallback_on_empty_report
    (reported : Option (List ScreenshotBlock)) (agentRaised : Bool)
    (h : Option.getD reported [] = []) :
    identifyChartBlocks true reported agentRaised = Except.ok fallbackBlocks ∧
    fallbackBlocks.length = 3 ∧
    fallbackBlocks =
      [ ⟨"Chart-Canvas", "canvas"⟩
      , ⟨"Chart-SVG", "svg"⟩
      , ⟨"Dashboard-Main", ".dashboard, .chart-container, .graph-container"⟩ ] := by
  refine ⟨?_, rfl, rfl⟩
  simp [identifyChartBlocks, chartBlocksResult, h]

/-- Witness for the amended C4: the agent raised without ever invoking
the reporting action. -/
theorem identify_fallback_on_empty_report_witness :
    Option.getD (none : Option (List ScreenshotBlock)) [] = [] ∧
    identifyChartBlocks true none true = Except.ok fallbackBlocks ∧
    fallbackBlocks.length = 3 := by
  have h := identify_fallback_on_empty_report none true rfl
  exact ⟨rfl, h.1, h.2.1⟩

/-- Claim C9: `identify_chart_blocks` never returns an empty list —
the fallback list is substituted exactly when the reported list is
empty — so the `if not blocks` exit of `run_monitoring_loop` is
unreachable when its blocks come from discovery. -/
theorem identify_never_empty (reported : Option (List ScreenshotBlock))
    (agentRaised : Bool) (login : PhaseOutcome Bool) (stop : LoopEnd) :
    identifyChartBlocks true reported agentRaised =
      Except.ok (chartBlocksResult (Option.getD reported [])) ∧
    chartBlocksResult (Option.getD reported []) ≠ [] ∧
    (runMonitoringLoop login
      (PhaseOutcome.ok (chartBlocksResult (Option.getD reported []))) stop).exit ≠
      ExitKind.noBlocks := by
  have hne : chartBlocksResult (Option.getD reported []) ≠ [] := by
    by_cases h : (Option.getD reported []).isEmpty
    · simp [chartBlocksResult, h, fallbackBlocks]
    · simp only [chartBlocksResult, h, if_false, Bool.false_eq_true]
      simpa [List.isEmpty_iff] using h
  refine ⟨rfl, hne, ?_⟩
  have he : (chartBlocksResult (Option.getD reported [])).isEmpty = false := by
    simpa [List.isEmpty_iff] using hne
  cases login with
  | interrupt => simp [runMonitoringLoop]
  | error => simp [runMonitoringLoop]
  | ok b =>
    cases b
    · simp [runMonitoringLoop]
    · cases stop <;> simp [runMonitoringLoop, he]

/-- Witness for C9: with no report and no agent error the discovery
yields the fallback list and the no-blocks exit is not taken. -/
theorem identify_never_empty_witness :
    identifyChartBlocks true none false =
      Except.ok (chartBlocksResult (Option.getD (none : Option (List ScreenshotBlock)) [])) ∧
    chartBlocksResult (Option.getD (none : Option (List ScreenshotBlock)) []) ≠ [] ∧
    (runMonitoringLoop (PhaseOutcome.ok true)
      (PhaseOutcome.ok (chartBlocksResult
        (Option.getD (none : Option (List ScreenshotBlock)) []))) LoopEnd.interrupt).exit ≠
      ExitKind.noBlocks :=
  identify_never_empty none false (PhaseOutcome.ok true) LoopEnd.interrupt
